import Mathlib

/-!
Verification of the aks-mentions-bot monitoring core.

This file shallowly embeds the relevance filter, urgency classifier,
sentiment scorer, report builder, monitoring-run pipeline, search-window
rule, the Twitter adapter's per-keyword status handling, and the adapter
deduplication routine, all translated from the Go sources in
`internal/monitoring/service.go` and `internal/sources/*.go`, and proves
the stated behavioural properties about them.

Conventions of the embedding:
* Go strings are Lean `String`s; `strings.Contains`/`strings.ToLower`
  become executable Lean functions over the character list.
* `time.Time`/`time.Duration` values are `Nat` (seconds); `time.Now()`
  and formatted timestamps are passed in as parameters.
* Go maps used as counters (`map[string]int`) are association lists
  built in first-insertion order; Go map iteration order is
  unspecified, which only affects the (unverified) ordering of
  `top_sources` among ties.
* Network I/O is split at the response boundary: an adapter function
  takes the (already received) HTTP outcome as a parameter.
* Fallible collaborators (storage `Store`, notification `SendReport`)
  are modelled by their outcome (`Option String`, `none` = success) and
  the calls the run makes to them are recorded in an effect trace.
-/

namespace AksMentionsBot

/-- Embeds the test `as` being a leading segment of `bs`
(helper for Go `strings.Contains`). -/
def charsHasPre : List Char → List Char → Bool
  | [], _ => true
  | _ :: _, [] => false
  | a :: as, b :: bs => a == b && charsHasPre as bs

/-- Embeds Go `strings.Contains` on character lists: does `needle`
occur as a contiguous segment of the second list? -/
def charsContains (needle : List Char) : List Char → Bool
  | [] => charsHasPre needle []
  | b :: bs => charsHasPre needle (b :: bs) || charsContains needle bs

/-- Go `strings.Contains s pat`. -/
def strContains (s pat : String) : Bool :=
  charsContains pat.toList s.toList

/-- Go `strings.ToLower` (character-wise lowering; the keyword lists
are ASCII, so `Char.toLower` matches Go's Unicode lowering on every
character that can affect a match). -/
def strToLower (s : String) : String :=
  String.mk (s.data.map Char.toLower)

/-- Embeds `models.Mention` from `internal/models/models.go` (the float64
`Relevance` score is never read or written by the verified code paths
and is omitted). -/
structure Mention where
  id : String
  source : String
  platform : String
  title : String
  content : String
  author : String
  url : String
  createdAt : Nat
  sentiment : String
  score : Int
  commentCount : Int
  keywords : List String
  deriving Repr, DecidableEq

/-- The lower-cased text every classifier works on:
`strings.ToLower(mention.Content + " " + mention.Title)`. -/
def mentionText (m : Mention) : String :=
  strToLower (m.content ++ " " ++ m.title)

/-- Primary AKS/Azure indicators from `isRelevantMention`. -/
def azureIndicators : List String :=
  ["aks", "azure kubernetes service", "azure kubernetes", "azure container service",
   "microsoft azure", "azurecr.io", "azure cli", "az aks", "azure devops",
   "azure container registry", "azure container apps", "kaito", "kubefleet",
   "azure kubernetes fleet", "azure kubernetes fleet manager"]

/-- Secondary Kubernetes-context indicators from `isRelevantMention`. -/
def kubernetesIndicators : List String :=
  ["kubernetes", "k8s", "container", "cluster", "deployment", "helm",
   "kubectl", "namespace", "pod", "service", "ingress", "nodepool"]

/-- Negative indicators from `isRelevantMention` (weapon homonyms and
competing products). -/
def negativeIndicators : List String :=
  ["rifle", "gun", "weapon", "firearm", "assault", "military", "bullet",
   "ammunition", "shoot", "trigger", "barrel", "stock", "caliber",
   "aws", "amazon", "eks", "gcp", "google", "gke", "openshift",
   "rancher", "docker desktop", "minikube", "kind", "k3s"]

/-- Embeds `Service.isRelevantMention` from `internal/monitoring/service.go`:
negative indicators veto first; then any primary Azure indicator
accepts; otherwise the technical sources (reddit, stackoverflow,
hackernews) require a core search term plus Kubernetes context, and
every other source is rejected. -/
def isRelevantMention (m : Mention) : Bool :=
  let content := mentionText m
  if negativeIndicators.any (fun i => strContains content i) then false
  else
    let azureScore := azureIndicators.countP (fun i => strContains content i)
    if azureScore > 0 then true
    else if m.source == "reddit" || m.source == "stackoverflow" || m.source == "hackernews" then
      let hasSearchTerm := strContains content "aks" || strContains content "azure kubernetes"
      let hasK8sContext := kubernetesIndicators.any (fun i => strContains content i)
      hasSearchTerm && hasK8sContext
    else false

/-- Security-related urgent keywords from `isUrgentMention`. -/
def securityKeywords : List String :=
  ["security vulnerability", "cve", "exploit", "breach", "attack",
   "malware", "ransomware", "phishing", "zero day", "critical security",
   "security patch", "hotfix", "urgent update", "immediate action required"]

/-- Breaking-change and service-issue keywords from `isUrgentMention`. -/
def breakingKeywords : List String :=
  ["breaking change", "deprecated", "end of life", "eol", "sunset",
   "service outage", "downtime", "incident", "degraded performance",
   "api changes", "breaking api", "mandatory upgrade"]

/-- High-impact-announcement keywords from `isUrgentMention`. -/
def highImpactKeywords : List String :=
  ["microsoft announcement", "azure announcement", "urgent notice",
   "action required", "immediate attention", "critical update",
   "service retirement", "feature retirement"]

/-- Embeds `Service.isUrgentMention`: true as soon as any of the three keyword
lists matches the lower-cased content+title. -/
def isUrgentMention (m : Mention) : Bool :=
  let content := mentionText m
  if securityKeywords.any (fun k => strContains content k) then true
  else if breakingKeywords.any (fun k => strContains content k) then true
  else if highImpactKeywords.any (fun k => strContains content k) then true
  else false

/-- Embeds `Service.filterUrgentMentions`: the append loop keeping exactly the
mentions `isUrgentMention` accepts. -/
def filterUrgentMentions : List Mention → List Mention
  | [] => []
  | m :: rest =>
    if isUrgentMention m then m :: filterUrgentMentions rest
    else filterUrgentMentions rest

/-- Positive word list of `basicSentimentAnalysis`. -/
def positiveWords : List String :=
  ["good", "great", "excellent", "love", "awesome", "fantastic", "helpful",
   "works", "solved", "success"]

/-- Negative word list of `basicSentimentAnalysis`. -/
def negativeWords : List String :=
  ["bad", "terrible", "awful", "hate", "broken", "error", "fail",
   "problem", "issue", "bug"]

/-- Embeds `Service.basicSentimentAnalysis`: lower-case, count matched words
from each list, compare. -/
def basicSentimentAnalysis (content : String) : String :=
  let c := strToLower content
  let positiveCount := positiveWords.countP (fun w => strContains c w)
  let negativeCount := negativeWords.countP (fun w => strContains c w)
  if positiveCount > negativeCount then "positive"
  else if negativeCount > positiveCount then "negative"
  else "neutral"

/-- Number of positive-list words occurring in the lower-cased text
(the spec's positive count). -/
def sentimentPositiveCount (text : String) : Nat :=
  positiveWords.countP (fun w => strContains (strToLower text) w)

/-- Number of negative-list words occurring in the lower-cased text
(the spec's negative count). -/
def sentimentNegativeCount (text : String) : Nat :=
  negativeWords.countP (fun w => strContains (strToLower text) w)

/-- One increment of a Go `map[string]int` counter
(`sourceCount[mention.Source]++`), on an association list kept in
first-insertion order. -/
def bump (k : String) : List (String × Nat) → List (String × Nat)
  | [] => [(k, 1)]
  | (k', n) :: rest =>
    if k' = k then (k', n + 1) :: rest else (k', n) :: bump k rest

/-- The counting pass of `generateReport`: one `bump` per mention. -/
def countBy (key : Mention → String) (ms : List Mention) : List (String × Nat) :=
  ms.foldl (fun acc m => bump (key m) acc) []

/-- Sum of the counter values of an association-list counter. -/
def sumValues (l : List (String × Nat)) : Nat :=
  (l.map Prod.snd).sum

/-- Insert one source/count pair into a count-descending list
(helper for `getTopSources`). -/
def insertByCountDesc (p : String × Nat) : List (String × Nat) → List (String × Nat)
  | [] => [p]
  | q :: rest =>
    if q.2 ≥ p.2 then q :: insertByCountDesc p rest else p :: q :: rest

/-- The descending sort of `getTopSources` (the Go code selection-sorts
the pairs obtained from map iteration, whose order among equal counts
is unspecified; any count-descending arrangement is a faithful model). -/
def sortByCountDesc : List (String × Nat) → List (String × Nat)
  | [] => []
  | p :: rest => insertByCountDesc p (sortByCountDesc rest)

/-- Embeds `Service.getTopSources`: sort by count descending, keep at most 5,
format as `name (count)`. -/
def getTopSources (sourceCount : List (String × Nat)) : List String :=
  ((sortByCountDesc sourceCount).take 5).map
    (fun p => p.1 ++ " (" ++ toString p.2 ++ ")")

/-- Embeds `models.Report` (the `Summary` map's three keys become fields). -/
structure Report where
  generatedAt : Nat
  period : String
  totalMentions : Nat
  mentions : List Mention
  summarySources : List (String × Nat)
  summarySentiment : List (String × Nat)
  summaryTopSources : List String
  deriving Repr, DecidableEq

/-- Embeds `Service.generateReport`: totals, the mention list itself, and the
per-source / per-sentiment counters built by a single pass. -/
def generateReport (schedule : String) (now : Nat) (mentions : List Mention) : Report :=
  let sourceCount := countBy (fun m => m.source) mentions
  let sentimentCount := countBy (fun m => m.sentiment) mentions
  { generatedAt := now
    period := schedule
    totalMentions := mentions.length
    mentions := mentions
    summarySources := sourceCount
    summarySentiment := sentimentCount
    summaryTopSources := getTopSources sourceCount }

/-- The configuration fields `RunMonitoring` reads
(from `internal/config/config.go`). -/
structure Config where
  reportSchedule : String
  keywords : List String
  enableContextFiltering : Bool
  enableSentimentAnalysis : Bool
  deriving Repr

/-- Embeds `Service.filterByContext`: keep exactly the relevant mentions. -/
def filterByContext : List Mention → List Mention
  | [] => []
  | m :: rest =>
    if isRelevantMention m then m :: filterByContext rest
    else filterByContext rest

/-- Embeds `Service.analyzeSentiment`: write the sentiment label of each
mention in place. -/
def analyzeSentiment (ms : List Mention) : List Mention :=
  ms.map (fun m => { m with sentiment := basicSentimentAnalysis m.content })

/-- The mention batch `RunMonitoring` ends up storing and reporting:
collected mentions after the configuration-gated relevance filter and
sentiment pass. -/
def processedMentions (cfg : Config) (collected : List Mention) : List Mention :=
  let filtered :=
    if cfg.enableContextFiltering then filterByContext collected else collected
  if cfg.enableSentimentAnalysis then analyzeSentiment filtered else filtered

/-- A call the monitoring run makes to an external collaborator. -/
inductive Effect where
  | storeCall (filename : String) (batch : List Mention)
  | sendReportCall (r : Report)
  deriving Repr

/-- Number of storage `Store` calls in a trace. -/
def storeCalls (tr : List Effect) : Nat :=
  tr.countP fun e => match e with
    | .storeCall _ _ => true
    | _ => false

/-- Number of notification `SendReport` calls in a trace. -/
def sendCalls (tr : List Effect) : Nat :=
  tr.countP fun e => match e with
    | .sendReportCall _ => true
    | _ => false

/-- Embeds `Service.storeMentions`: an empty batch returns success without
calling storage; otherwise storage is called once with the serialized
batch under a timestamped filename and its outcome is returned.
`storeOutcome` is the storage collaborator's reply (`none` = success). -/
def storeMentions (timestamp : String) (storeOutcome : Option String)
    (ms : List Mention) : Option String × List Effect :=
  if ms.length = 0 then (none, [])
  else (storeOutcome, [.storeCall ("mentions-" ++ timestamp ++ ".json") ms])

/-- The post-collection pipeline of `Service.RunMonitoring`: filter and
score the collected mentions, store them, and (only when storing
succeeded) generate and send the report, whose delivery outcome is the
run's result.  The in-memory metrics update between the two calls has
no observable effect on the claims and is elided.  Returns the run's
error result plus the trace of collaborator calls. -/
def runMonitoring (cfg : Config) (now : Nat) (timestamp : String)
    (collected : List Mention) (storeOutcome sendOutcome : Option String) :
    Option String × List Effect :=
  let batch := processedMentions cfg collected
  match storeMentions timestamp storeOutcome batch with
  | (some e, tr) => (some e, tr)
  | (none, tr) =>
    let report := generateReport cfg.reportSchedule now batch
    (sendOutcome, tr ++ [.sendReportCall report])

/-- One hour of `time.Duration`, in seconds. -/
def hour : Nat := 3600

/-- Embeds `Service.getLastRunTime`: the metrics' last-run timestamp, or
24 hours before now when no run has ever completed
(`metrics.LastRun.IsZero()`). -/
def getLastRunTime (now : Nat) (lastRun : Option Nat) : Nat :=
  match lastRun with
  | none => now - 24 * hour
  | some t => t

/-- The search-window switch at the top of `Service.RunMonitoring`:
daily = 24h, weekly = 7×24h, otherwise time since the last completed
run floored at 24h. -/
def computeSearchWindow (schedule : String) (now : Nat) (lastRun : Option Nat) : Nat :=
  if schedule = "daily" then 24 * hour
  else if schedule = "weekly" then 7 * 24 * hour
  else
    let timeSinceLastRun := now - getLastRunTime now lastRun
    if timeSinceLastRun < 24 * hour then 24 * hour else timeSinceLastRun

/-- The fan-out of `RunMonitoring`: each source adapter is invoked with
the same window value; the pair records the window each adapter was
passed together with its result. -/
def dispatchSources (srcs : List (Nat → List Mention)) (window : Nat) :
    List (Nat × List Mention) :=
  srcs.map (fun f => (window, f window))

/-- A tweet as decoded from the Twitter search response
(`twitterTweet` in `internal/sources/twitter.go`); `createdAt` is the
already-parsed RFC3339 timestamp, `none` when parsing failed. -/
structure TwitterTweet where
  id : String
  text : String
  authorID : String
  createdAt : Option Nat
  likeCount : Nat
  replyCount : Nat
  referencedTypes : List String
  deriving Repr

/-- Embeds `TwitterSource.isRetweet`. -/
def twitterIsRetweet (t : TwitterTweet) : Bool :=
  t.referencedTypes.any (fun ty => ty == "retweeted")

/-- The tweet-to-mention loop of `searchKeyword`: skip retweets and
tweets whose timestamp failed to parse, build a Mention from the rest. -/
def tweetsToMentions (keyword : String) : List TwitterTweet → List Mention
  | [] => []
  | tweet :: rest =>
    if twitterIsRetweet tweet then tweetsToMentions keyword rest
    else match tweet.createdAt with
      | none => tweetsToMentions keyword rest
      | some createdAt =>
        { id := "twitter_" ++ tweet.id
          source := "twitter"
          platform := "X.com (Twitter)"
          title := ""
          content := tweet.text
          author := tweet.authorID
          url := "https://twitter.com/i/status/" ++ tweet.id
          createdAt := createdAt
          sentiment := ""
          score := Int.ofNat tweet.likeCount
          commentCount := Int.ofNat tweet.replyCount
          keywords := [keyword] } :: tweetsToMentions keyword rest

/-- The outcome of the Twitter search HTTP request, as seen by
`searchKeyword` after the client call returned: either a transport
error, or a status code with the decoded body (`none` = JSON decode
failure). -/
inductive TwitterResponse where
  | netError (e : String)
  | response (status : Nat) (body : Option (List TwitterTweet))
  deriving Repr

/-- Embeds `TwitterSource.searchKeyword` from the request response onward:
transport errors propagate, HTTP 429 yields an empty success, any
other non-200 status is an error, a 200 body is decoded and converted. -/
def twitterSearchKeyword (keyword : String) (resp : TwitterResponse) :
    Except String (List Mention) :=
  match resp with
  | .netError e => .error e
  | .response status body =>
    if status = 429 then .ok []
    else if status ≠ 200 then
      .error ("twitter API returned status " ++ toString status)
    else match body with
      | none => .error "failed to parse Twitter response"
      | some tweets => .ok (tweetsToMentions keyword tweets)

/-- The seen-set loop of the adapters' `deduplicateMentions`
(identical in reddit.go, stackoverflow.go and twitter.go): skip a
mention whose ID was seen, otherwise keep it and record its ID. -/
def dedupAux (seen : List String) : List Mention → List Mention
  | [] => []
  | m :: rest =>
    if seen.contains m.id then dedupAux seen rest
    else m :: dedupAux (m.id :: seen) rest

/-- Embeds `deduplicateMentions`: first-occurrence deduplication by mention ID. -/
def deduplicateMentions (ms : List Mention) : List Mention :=
  dedupAux [] ms

/-! ## Helper lemmas -/

theorem sumValues_bump (k : String) (l : List (String × Nat)) :
    sumValues (bump k l) = sumValues l + 1 := by
  induction l with
  | nil => simp [bump, sumValues]
  | cons q rest ih =>
    obtain ⟨k', n⟩ := q
    by_cases h : k' = k
    · simp [bump, h, sumValues]
      omega
    · simp [bump, h, sumValues] at ih ⊢
      omega

theorem sumValues_foldl_bump (key : Mention → String) (ms : List Mention) :
    ∀ acc, sumValues (ms.foldl (fun acc m => bump (key m) acc) acc) =
      sumValues acc + ms.length := by
  induction ms with
  | nil => intro acc; simp
  | cons m rest ih =>
    intro acc
    rw [List.foldl_cons, ih, sumValues_bump]
    simp
    omega

theorem sumValues_countBy (key : Mention → String) (ms : List Mention) :
    sumValues (countBy key ms) = ms.length := by
  have h := sumValues_foldl_bump key ms []
  simpa [countBy, sumValues] using h

/-! ## Claim theorems -/

/-- Claim C4: for any mention list, the generated report's total equals
the list length, the mention list is carried over unchanged, and the
per-source and per-sentiment counters each sum to the list length. -/
theorem generateReport_totals (schedule : String) (now : Nat) (ms : List Mention) :
    (generateReport schedule now ms).totalMentions = ms.length ∧
    (generateReport schedule now ms).mentions = ms ∧
    sumValues (generateReport schedule now ms).summarySources = ms.length ∧
    sumValues (generateReport schedule now ms).summarySentiment = ms.length := by
  refine ⟨rfl, rfl, ?_, ?_⟩
  · exact sumValues_countBy (fun m => m.source) ms
  · exact sumValues_countBy (fun m => m.sentiment) ms

/-- Claim C2: a mention whose lower-cased content+title contains any
negative-indicator term is rejected by `isRelevantMention`, regardless
of what positive evidence the text also contains. -/
theorem isRelevantMention_negative_precedence (m : Mention)
    (h : ∃ t ∈ negativeIndicators, strContains (mentionText m) t = true) :
    isRelevantMention m = false := by
  have hany : negativeIndicators.any (fun i => strContains (mentionText m) i) = true := by
    obtain ⟨t, ht, hc⟩ := h
    exact List.any_eq_true.mpr ⟨t, ht, hc⟩
  simp [isRelevantMention, hany]

/-- Witness mention for claim C2: text with a primary Azure indicator
and the negative indicator "rifle". -/
def negPrecedenceMention : Mention :=
  { id := "w2", source := "reddit", platform := "r/kubernetes",
    title := "selling a rifle stock",
    content := "azure kubernetes service aks cluster kubectl",
    author := "", url := "", createdAt := 0, sentiment := "", score := 0,
    commentCount := 0, keywords := [] }

/-- Claim C2 witness: the precedence theorem applied at a concrete
mention containing both a negative and a primary positive indicator. -/
theorem isRelevantMention_negative_precedence_witness :
    isRelevantMention negPrecedenceMention = false :=
  isRelevantMention_negative_precedence negPrecedenceMention ⟨"rifle", by decide, by decide⟩

/-- Claim C3: when the text has no negative indicator and no primary
Azure indicator, `isRelevantMention` answers true exactly when the
source is one of the technical sources and the text has a core search
term plus Kubernetes context; every other source is rejected in this
situation.  (Both core terms are themselves primary indicators, so
under these hypotheses the core-term test in fact always fails.) -/
theorem isRelevantMention_no_primary_rule (m : Mention)
    (hneg : negativeIndicators.any (fun i => strContains (mentionText m) i) = false)
    (haz : azureIndicators.any (fun i => strContains (mentionText m) i) = false) :
    isRelevantMention m =
      ((m.source == "reddit" || m.source == "stackoverflow" || m.source == "hackernews") &&
       ((strContains (mentionText m) "aks" || strContains (mentionText m) "azure kubernetes") &&
        kubernetesIndicators.any (fun i => strContains (mentionText m) i))) := by
  have hcount : azureIndicators.countP (fun i => strContains (mentionText m) i) = 0 := by
    rw [List.countP_eq_zero]
    intro a ha
    exact (List.any_eq_false.mp haz) a ha
  simp only [isRelevantMention, hneg, hcount, Bool.false_eq_true, if_false,
    gt_iff_lt, Nat.lt_irrefl]
  cases hsrc : (m.source == "reddit" || m.source == "stackoverflow" ||
      m.source == "hackernews") <;> simp [hsrc]

/-- Witness mention for claim C3: a technical source whose text has
Kubernetes context but neither negative nor Azure indicators. -/
def noPrimaryMention : Mention :=
  { id := "w3", source := "stackoverflow", platform := "Stack Overflow",
    title := "", content := "kubectl cluster",
    author := "", url := "", createdAt := 0, sentiment := "", score := 0,
    commentCount := 0, keywords := [] }

/-- Claim C3 witness: the source-sensitivity rule applied at a concrete
mention satisfying both hypotheses. -/
theorem isRelevantMention_no_primary_rule_witness :
    isRelevantMention noPrimaryMention = false :=
  (isRelevantMention_no_primary_rule noPrimaryMention (by decide) (by decide)).trans
    (by decide)

/-- Claim C5: the sentiment scorer answers positive exactly when the
positive-word count exceeds the negative-word count, negative exactly
for the converse, and neutral exactly on ties (including zero of
each); being a function of the text, it is deterministic. -/
theorem basicSentimentAnalysis_characterization (text : String) :
    (basicSentimentAnalysis text = "positive" ↔
      sentimentNegativeCount text < sentimentPositiveCount text) ∧
    (basicSentimentAnalysis text = "negative" ↔
      sentimentPositiveCount text < sentimentNegativeCount text) ∧
    (basicSentimentAnalysis text = "neutral" ↔
      sentimentPositiveCount text = sentimentNegativeCount text) := by
  have heq : basicSentimentAnalysis text =
      if sentimentNegativeCount text < sentimentPositiveCount text then "positive"
      else if sentimentPositiveCount text < sentimentNegativeCount text then "negative"
      else "neutral" := rfl
  rcases Nat.lt_trichotomy (sentimentNegativeCount text) (sentimentPositiveCount text)
    with h | h | h
  · rw [heq, if_pos h]
    exact ⟨iff_of_true rfl h, iff_of_false (by decide) (by omega),
      iff_of_false (by decide) (by omega)⟩
  · rw [heq, if_neg (by omega), if_neg (by omega)]
    exact ⟨iff_of_false (by decide) (by omega), iff_of_false (by decide) (by omega),
      iff_of_true rfl h.symm⟩
  · rw [heq, if_neg (by omega), if_pos h]
    exact ⟨iff_of_false (by decide) (by omega), iff_of_true rfl h,
      iff_of_false (by decide) (by omega)⟩

/-- Claim C5 witness: the characterization applied at a concrete text
whose positive count exceeds its negative count. -/
theorem basicSentimentAnalysis_characterization_witness :
    basicSentimentAnalysis "works great" = "positive" :=
  ((basicSentimentAnalysis_characterization "works great").1).mpr (by decide)

/-- Concrete mention for claim C1: urgent by keyword ("attack") but
irrelevant ("rifle" is a negative indicator). -/
def urgentGamingMention : Mention :=
  { id := "yt1", source := "youtube", platform := "YouTube",
    title := "AKS rifle security features and attack strategies",
    content := "Best security attachments for AKS-74 against enemy attack",
    author := "", url := "", createdAt := 0, sentiment := "", score := 0,
    commentCount := 0, keywords := [] }

/-- Claim C1: evaluation of the code at the failing input — the mention
is urgent but not relevant, yet `filterUrgentMentions` (the whole
selection step of `RunUrgentCheck`) still includes it in the urgent
notification set, because the urgent path never consults
`isRelevantMention`.  This contradicts the spec and the repository's
own test, which documents the intended alert decision as
`isRelevant && isUrgent`. -/
theorem filterUrgentMentions_ignores_relevance :
    isUrgentMention urgentGamingMention = true ∧
    isRelevantMention urgentGamingMention = false ∧
    filterUrgentMentions [urgentGamingMention] = [urgentGamingMention] :=
  ⟨rfl, rfl, rfl⟩

/-- The default configuration shape of a production full run (both
pipeline stages enabled, weekly schedule). -/
def cfgDefault : Config :=
  { reportSchedule := "weekly"
    keywords := ["Azure Kubernetes Service", "AKS"]
    enableContextFiltering := true
    enableSentimentAnalysis := true }

/-- Claim C6 counterexample: a full run over zero mentions makes no
storage call at all (`storeMentions` returns early on an empty batch),
refuting "calls store exactly once ... even when the mention list is
empty"; the report is still sent exactly once. -/
theorem runMonitoring_empty_batch_skips_store :
    storeCalls (runMonitoring cfgDefault 0 "2025-01-01-00-00-00" [] none none).2 = 0 ∧
    storeCalls (runMonitoring cfgDefault 0 "2025-01-01-00-00-00" [] none none).2 ≠ 1 ∧
    sendCalls (runMonitoring cfgDefault 0 "2025-01-01-00-00-00" [] none none).2 = 1 := by
  decide

/-- Claim C6 (amended): in a full run whose storage call succeeds, the
storage collaborator is called exactly once when the processed batch is
non-empty and not at all when it is empty, and `SendReport` is called
exactly once either way (in particular for zero mentions). -/
theorem runMonitoring_call_counts (cfg : Config) (now : Nat) (ts : String)
    (collected : List Mention) (sendOutcome : Option String) :
    storeCalls (runMonitoring cfg now ts collected none sendOutcome).2 =
      (if (processedMentions cfg collected).length = 0 then 0 else 1) ∧
    sendCalls (runMonitoring cfg now ts collected none sendOutcome).2 = 1 := by
  unfold runMonitoring storeMentions
  by_cases h : (processedMentions cfg collected).length = 0
  · simp [h, storeCalls, sendCalls]
  · simp [h, storeCalls, sendCalls]

/-- Claim C9: when the storage call of the full run fails, the run
returns that error and the notification collaborator's `SendReport` is
never called — storage success is a precondition for report delivery. -/
theorem runMonitoring_store_error_aborts (cfg : Config) (now : Nat) (ts : String)
    (collected : List Mention) (e : String) (sendOutcome : Option String)
    (h : (processedMentions cfg collected).length ≠ 0) :
    (runMonitoring cfg now ts collected (some e) sendOutcome).1 = some e ∧
    sendCalls (runMonitoring cfg now ts collected (some e) sendOutcome).2 = 0 := by
  unfold runMonitoring storeMentions
  simp [h, sendCalls]

/-- A configuration with both pipeline stages disabled, so the stored
batch is the collected list itself. -/
def cfgNoProcessing : Config :=
  { reportSchedule := "weekly"
    keywords := ["AKS"]
    enableContextFiltering := false
    enableSentimentAnalysis := false }

/-- A plain mention used as the stored batch in witnesses. -/
def storedMention : Mention :=
  { id := "s1", source := "reddit", platform := "r/azure",
    title := "aks upgrade question",
    content := "how do i upgrade my aks cluster",
    author := "u1", url := "", createdAt := 10, sentiment := "", score := 3,
    commentCount := 1, keywords := ["aks"] }

/-- Claim C9 witness: the abort theorem applied at a concrete run with
one mention and a failing storage collaborator. -/
theorem runMonitoring_store_error_aborts_witness :
    (runMonitoring cfgNoProcessing 0 "ts" [storedMention] (some "store failed") none).1 =
      some "store failed" :=
  (runMonitoring_store_error_aborts cfgNoProcessing 0 "ts" [storedMention]
    "store failed" none (by decide)).1

/-- Claim C7: a rate-limited (HTTP 429) Twitter search returns an empty
mention list as a success, not an error, for that keyword — whatever
the response body holds — so a throttled source contributes an empty
result instead of failing the run. -/
theorem twitterSearchKeyword_rate_limit (keyword : String)
    (body : Option (List TwitterTweet)) :
    twitterSearchKeyword keyword (.response 429 body) = .ok [] := rfl

/-- Claim C8: the full run's search window is 24h for the "daily"
schedule, 7×24h for "weekly", and otherwise the time since the last
completed run floored at 24h (24h when no run has ever completed), and
the dispatch passes this single window value unchanged to every
source adapter. -/
theorem computeSearchWindow_rule (schedule : String) (now : Nat) (lastRun : Option Nat) :
    computeSearchWindow "daily" now lastRun = 24 * hour ∧
    computeSearchWindow "weekly" now lastRun = 7 * 24 * hour ∧
    (schedule ≠ "daily" → schedule ≠ "weekly" →
      computeSearchWindow schedule now none = 24 * hour) ∧
    (∀ t, schedule ≠ "daily" → schedule ≠ "weekly" →
      computeSearchWindow schedule now (some t) = max (now - t) (24 * hour)) ∧
    (∀ srcs : List (Nat → List Mention),
      ∀ p ∈ dispatchSources srcs (computeSearchWindow schedule now lastRun),
        p.1 = computeSearchWindow schedule now lastRun) := by
  refine ⟨by simp [computeSearchWindow], by simp [computeSearchWindow], ?_, ?_, ?_⟩
  · intro h1 h2
    simp only [computeSearchWindow, getLastRunTime, h1, h2, if_false]
    split <;> omega
  · intro t h1 h2
    simp only [computeSearchWindow, getLastRunTime, h1, h2, if_false]
    split <;> omega
  · intro srcs p hp
    simp only [dispatchSources, List.mem_map] at hp
    obtain ⟨f, _, rfl⟩ := hp
    rfl

/-- Claim C8 witness: the window rule applied at a concrete non-daily,
non-weekly schedule with a recorded last run. -/
theorem computeSearchWindow_rule_witness :
    computeSearchWindow "monthly" (100 * hour) (some 0) =
      max (100 * hour - 0) (24 * hour) :=
  (computeSearchWindow_rule "monthly" (100 * hour) (some 0)).2.2.2.1 0
    (by decide) (by decide)

theorem dedupAux_cons_seen (seen : List String) (m : Mention) (rest : List Mention)
    (h : seen.contains m.id = true) :
    dedupAux seen (m :: rest) = dedupAux seen rest := by
  show (if seen.contains m.id then dedupAux seen rest
    else m :: dedupAux (m.id :: seen) rest) = dedupAux seen rest
  rw [if_pos h]

theorem dedupAux_cons_new (seen : List String) (m : Mention) (rest : List Mention)
    (h : seen.contains m.id = false) :
    dedupAux seen (m :: rest) = m :: dedupAux (m.id :: seen) rest := by
  show (if seen.contains m.id then dedupAux seen rest
    else m :: dedupAux (m.id :: seen) rest) = m :: dedupAux (m.id :: seen) rest
  rw [if_neg (by rw [h]; exact Bool.false_ne_true)]

theorem dedupAux_sublist (ms : List Mention) :
    ∀ seen, List.Sublist (dedupAux seen ms) ms := by
  induction ms with
  | nil => intro seen; exact List.Sublist.refl _
  | cons m rest ih =>
    intro seen
    cases h : seen.contains m.id
    · rw [dedupAux_cons_new seen m rest h]
      exact (ih (m.id :: seen)).cons₂ m
    · rw [dedupAux_cons_seen seen m rest h]
      exact (ih seen).cons m

theorem dedupAux_not_mem (ms : List Mention) :
    ∀ seen i, i ∈ seen → i ∉ (dedupAux seen ms).map Mention.id := by
  induction ms with
  | nil => intro seen i _; simp [dedupAux]
  | cons m rest ih =>
    intro seen i hi
    cases h : seen.contains m.id
    · have hm : m.id ∉ seen := by simpa using h
      rw [dedupAux_cons_new seen m rest h]
      simp only [List.map_cons, List.mem_cons]
      rintro (rfl | hmem)
      · exact hm hi
      · exact ih (m.id :: seen) i (List.mem_cons_of_mem _ hi) hmem
    · rw [dedupAux_cons_seen seen m rest h]
      exact ih seen i hi

theorem dedupAux_nodup (ms : List Mention) :
    ∀ seen, ((dedupAux seen ms).map Mention.id).Nodup := by
  induction ms with
  | nil => intro seen; simp [dedupAux]
  | cons m rest ih =>
    intro seen
    cases h : seen.contains m.id
    · rw [dedupAux_cons_new seen m rest h]
      simp only [List.map_cons, List.nodup_cons]
      exact ⟨dedupAux_not_mem rest (m.id :: seen) m.id (List.mem_cons_self _ _),
        ih (m.id :: seen)⟩
    · rw [dedupAux_cons_seen seen m rest h]
      exact ih seen

theorem dedupAux_mem (ms : List Mention) :
    ∀ seen i, i ∉ seen →
      ((i ∈ (dedupAux seen ms).map Mention.id) ↔ i ∈ ms.map Mention.id) := by
  induction ms with
  | nil => intro seen i _; simp [dedupAux]
  | cons m rest ih =>
    intro seen i hi
    cases h : seen.contains m.id
    · rw [dedupAux_cons_new seen m rest h]
      simp only [List.map_cons, List.mem_cons]
      by_cases him : i = m.id
      · simp [him]
      · have hi' : i ∉ m.id :: seen := by
          simp only [List.mem_cons]
          rintro (h' | h')
          · exact him h'
          · exact hi h'
        rw [ih (m.id :: seen) i hi']
    · have hm : m.id ∈ seen := by simpa using h
      have hne : i ≠ m.id := fun heq => hi (heq ▸ hm)
      rw [dedupAux_cons_seen seen m rest h, ih seen i hi]
      simp [hne]

theorem dedupAux_find (ms : List Mention) :
    ∀ seen i, i ∉ seen →
      (dedupAux seen ms).find? (fun m => m.id == i) =
        ms.find? (fun m => m.id == i) := by
  induction ms with
  | nil => intro seen i _; simp [dedupAux]
  | cons m rest ih =>
    intro seen i hi
    cases h : seen.contains m.id
    · cases him : (m.id == i)
      · have hmne : m.id ≠ i := by simpa using him
        have hi' : i ∉ m.id :: seen := by
          simp only [List.mem_cons]
          rintro (h' | h')
          · exact hmne h'.symm
          · exact hi h'
        rw [dedupAux_cons_new seen m rest h]
        simp only [List.find?_cons, him]
        exact ih (m.id :: seen) i hi'
      · rw [dedupAux_cons_new seen m rest h]
        simp only [List.find?_cons, him]
    · have hm : m.id ∈ seen := by simpa using h
      have hne : (m.id == i) = false := by
        simp only [beq_eq_false_iff_ne, ne_eq]
        exact fun heq => hi (heq ▸ hm)
      rw [dedupAux_cons_seen seen m rest h]
      simp only [List.find?_cons, hne]
      exact ih seen i hi

theorem dedupAux_eq_self (ms : List Mention) :
    ∀ seen, (∀ m ∈ ms, m.id ∉ seen) → (ms.map Mention.id).Nodup →
      dedupAux seen ms = ms := by
  induction ms with
  | nil => intro seen _ _; rfl
  | cons m rest ih =>
    intro seen hseen hnodup
    have hm : m.id ∉ seen := hseen m (List.mem_cons_self _ _)
    have h : seen.contains m.id = false := by simpa using hm
    rw [dedupAux_cons_new seen m rest h]
    simp only [List.map_cons, List.nodup_cons] at hnodup
    refine congrArg (m :: ·) (ih (m.id :: seen) ?_ hnodup.2)
    intro x hx
    simp only [List.mem_cons]
    rintro (h' | h')
    · exact hnodup.1 (h' ▸ List.mem_map_of_mem Mention.id hx)
    · exact hseen x (List.mem_cons_of_mem _ hx) h'

/-- Claim C10: deduplication keeps each mention ID exactly once (count
one for present IDs, zero otherwise), keeps the first occurrence of
each ID, returns a subsequence of its input (so relative order is
preserved), and is idempotent. -/
theorem deduplicateMentions_spec (ms : List Mention) (i : String) :
    ((deduplicateMentions ms).map Mention.id).count i =
      (if i ∈ ms.map Mention.id then 1 else 0) ∧
    List.Sublist (deduplicateMentions ms) ms ∧
    (deduplicateMentions ms).find? (fun m => m.id == i) =
      ms.find? (fun m => m.id == i) ∧
    deduplicateMentions (deduplicateMentions ms) = deduplicateMentions ms := by
  refine ⟨?_, dedupAux_sublist ms [], dedupAux_find ms [] i (by simp), ?_⟩
  · by_cases h : i ∈ ms.map Mention.id
    · rw [if_pos h]
      exact List.count_eq_one_of_mem (dedupAux_nodup ms [])
        ((dedupAux_mem ms [] i (by simp)).mpr h)
    · rw [if_neg h]
      refine List.count_eq_zero_of_not_mem ?_
      exact fun hmem => h ((dedupAux_mem ms [] i (by simp)).mp hmem)
  · refine dedupAux_eq_self (deduplicateMentions ms) [] (by simp) ?_
    exact dedupAux_nodup ms []

end AksMentionsBot
